import Mathlib

/-!
Verification of the UniFi external-dns webhook adapter (Go sources under
internal/unifi) against its natural-language specification.

The Go code is shallowly embedded: Go strings are modelled as either
Lean String values or List Char (for the character-level scanning done by
fmt.Sscanf and fmt.Sprintf), Go pointers to int as Option Int, fallible
operations as Option/Except, and the HTTP transport as an oracle that maps
the index of each underlying HTTP call to the scripted response.
-/

namespace Unifi

/-! ## Character-level model of fmt verbs used by the SRV transformer

FormatSRVValue (transformer.go) renders "%d %d %d %s"; ParseSRVTarget
(transformer.go) scans the same verb string with fmt.Sscanf.  Sscanf
treats runs of whitespace as separators, %d consumes an optional sign
followed by decimal digits, and %s consumes one whitespace-free token;
input left over after the four verbs is ignored. -/

/-- Whitespace test used by the scanning model (Go fmt skips any space rune). -/
def isSpace (c : Char) : Bool := c.isWhitespace

/-- Splitting accumulator: collects the current token (reversed) while walking
the character list, emitting a token at each whitespace boundary. -/
def splitWsAux : List Char → List Char → List (List Char)
  | [], acc => if acc.isEmpty then [] else [acc.reverse]
  | c :: cs, acc =>
    if isSpace c then
      if acc.isEmpty then splitWsAux cs [] else acc.reverse :: splitWsAux cs []
    else
      splitWsAux cs (c :: acc)

/-- Whitespace-separated tokens of a character list, in order. -/
def splitWs (cs : List Char) : List (List Char) := splitWsAux cs []

/-- Decimal digit character for a value below ten. -/
def digitChar (d : Nat) : Char := Char.ofNat (48 + d)

/-- Fuel-driven decimal rendering, mirroring the digit loop of Go strconv
(which backs fmt Sprintf of an int): emit the low digit, recurse on n / 10. -/
def natToCharsCore : Nat → Nat → List Char → List Char
  | 0, _, acc => acc
  | fuel + 1, n, acc =>
    if n < 10 then digitChar (n % 10) :: acc
    else natToCharsCore fuel (n / 10) (digitChar (n % 10) :: acc)

/-- Decimal representation of a natural number, most significant digit first. -/
def natToChars (n : Nat) : List Char := natToCharsCore (n + 1) n []

/-- Decimal representation of an integer as printed by the %d verb. -/
def intToChars (i : Int) : List Char :=
  if i < 0 then '-' :: natToChars i.natAbs else natToChars i.toNat

/-- Digit-by-digit accumulation of a decimal number; any non-digit character
aborts the scan, mirroring the %d verb failing on a malformed token. -/
def parseNatAux : List Char → Nat → Option Nat
  | [], acc => some acc
  | c :: cs, acc =>
    if c.isDigit then parseNatAux cs (acc * 10 + (c.toNat - 48)) else none

/-- Parse a non-empty all-digit token as a natural number. -/
def parseNat (cs : List Char) : Option Nat :=
  if cs.isEmpty then none else parseNatAux cs 0

/-- Parse one token with the %d verb: optional sign, then decimal digits. -/
def parseGoInt (cs : List Char) : Option Int :=
  match cs with
  | [] => none
  | c :: rest =>
    if c = '-' then (parseNat rest).map (fun n => -(n : Int))
    else if c = '+' then (parseNat rest).map (fun n => (n : Int))
    else (parseNat cs).map (fun n => (n : Int))

/-- Result of a successful SRV target parse: the three numeric fields plus the
remaining host token that ParseSRVTarget stores back into the record value. -/
structure SRVFields where
  priority : Int
  weight : Int
  port : Int
  value : List Char
deriving Repr, DecidableEq

/-- ParseSRVTarget (transformer.go): scan the target as
"priority weight port host" via Sscanf; any missing token or non-integer
numeric field yields a data error, modelled as none.  Tokens after the
fourth are ignored, as Sscanf leaves trailing input unread. -/
def ParseSRVTarget (target : List Char) : Option SRVFields :=
  match splitWs target with
  | p :: w :: pt :: h :: _ =>
    match parseGoInt p, parseGoInt w, parseGoInt pt with
    | some pv, some wv, some ptv => some ⟨pv, wv, ptv, h⟩
    | _, _, _ => none
  | _ => none

/-- FormatSRVValue (transformer.go): Sprintf of "%d %d %d %s". -/
def FormatSRVValue (priority weight port : Int) (target : List Char) : List Char :=
  intToChars priority ++ ' ' :: intToChars weight ++ ' ' :: intToChars port ++ ' ' :: target

/-! ### Round-trip lemmas for the decimal rendering -/

theorem natToCharsCore_shape (fuel : Nat) :
    ∀ n acc, natToCharsCore fuel n acc = natToCharsCore fuel n [] ++ acc := by
  induction fuel with
  | zero => intro n acc; simp [natToCharsCore]
  | succ fuel ih =>
    intro n acc
    by_cases h : n < 10
    · simp [natToCharsCore, h]
    · simp only [natToCharsCore, if_neg h]
      rw [ih (n / 10) (digitChar (n % 10) :: acc),
        ih (n / 10) [digitChar (n % 10)]]
      simp

theorem digitChar_isDigit {d : Nat} (h : d < 10) : (digitChar d).isDigit = true := by
  interval_cases d <;> decide

theorem digitChar_not_space {d : Nat} (h : d < 10) : isSpace (digitChar d) = false := by
  interval_cases d <;> decide

theorem digitChar_ne_dash {d : Nat} (h : d < 10) : digitChar d ≠ '-' := by
  interval_cases d <;> decide

theorem digitChar_ne_plus {d : Nat} (h : d < 10) : digitChar d ≠ '+' := by
  interval_cases d <;> decide

theorem digitChar_val {d : Nat} (h : d < 10) : (digitChar d).toNat - 48 = d := by
  interval_cases d <;> decide

theorem natToCharsCore_mem (fuel : Nat) :
    ∀ n acc c, c ∈ natToCharsCore fuel n acc →
      c ∈ acc ∨ ∃ d, d < 10 ∧ c = digitChar d := by
  induction fuel with
  | zero => intro n acc c hc; exact Or.inl hc
  | succ fuel ih =>
    intro n acc c hc
    by_cases h : n < 10
    · simp only [natToCharsCore, if_pos h, List.mem_cons] at hc
      rcases hc with hc | hc
      · exact Or.inr ⟨n % 10, Nat.mod_lt _ (by omega), hc⟩
      · exact Or.inl hc
    · simp only [natToCharsCore, if_neg h] at hc
      rcases ih (n / 10) _ c hc with hc | hc
      · rcases List.mem_cons.mp hc with hc | hc
        · exact Or.inr ⟨n % 10, Nat.mod_lt _ (by omega), hc⟩
        · exact Or.inl hc
      · exact Or.inr hc

theorem natToChars_mem {n : Nat} {c : Char} (hc : c ∈ natToChars n) :
    ∃ d, d < 10 ∧ c = digitChar d := by
  rcases natToCharsCore_mem (n + 1) n [] c hc with h | h
  · simp at h
  · exact h

theorem natToCharsCore_ne_nil (fuel : Nat) :
    ∀ n acc, 0 < fuel → natToCharsCore fuel n acc ≠ [] := by
  cases fuel with
  | zero => intro n acc h; omega
  | succ fuel =>
    intro n acc _
    by_cases h : n < 10
    · simp [natToCharsCore, h]
    · simp only [natToCharsCore, if_neg h]
      rw [natToCharsCore_shape]
      simp

theorem natToChars_ne_nil (n : Nat) : natToChars n ≠ [] :=
  natToCharsCore_ne_nil (n + 1) n [] (Nat.succ_pos n)

theorem parseNatAux_natToCharsCore (fuel : Nat) :
    ∀ n, n < 10 ^ fuel → ∀ acc rest,
      parseNatAux (natToCharsCore fuel n [] ++ rest) acc =
        parseNatAux rest (acc * 10 ^ (natToCharsCore fuel n []).length + n) := by
  induction fuel with
  | zero =>
    intro n hn acc rest
    have hn0 : n = 0 := by simpa using hn
    subst hn0
    simp [natToCharsCore]
  | succ fuel ih =>
    intro n hn acc rest
    by_cases h : n < 10
    · have hmod : n % 10 = n := Nat.mod_eq_of_lt h
      simp only [natToCharsCore, if_pos h, hmod, List.cons_append, List.nil_append,
        List.length_cons, List.length_nil]
      simp only [parseNatAux, digitChar_isDigit h, if_pos, digitChar_val h]
      norm_num
    · simp only [natToCharsCore, if_neg h]
      rw [natToCharsCore_shape]
      have hdiv : n / 10 < 10 ^ fuel := by
        have : 10 ^ (fuel + 1) = 10 ^ fuel * 10 := pow_succ 10 fuel
        omega
      rw [List.append_assoc, List.singleton_append,
        ih (n / 10) hdiv acc (digitChar (n % 10) :: rest)]
      have hm : n % 10 < 10 := Nat.mod_lt _ (by omega)
      simp only [parseNatAux, digitChar_isDigit hm, if_pos, digitChar_val hm,
        List.length_append, List.length_cons, List.length_nil]
      congr 1
      have hdm : 10 * (n / 10) + n % 10 = n := Nat.div_add_mod n 10
      have hpow : (10 : Nat) ^ ((natToCharsCore fuel (n / 10) []).length + (0 + 1)) =
          10 ^ (natToCharsCore fuel (n / 10) []).length * 10 := by
        simp [pow_succ]
      rw [hpow]
      ring_nf
      omega

theorem parseNat_natToChars (n : Nat) : parseNat (natToChars n) = some n := by
  have hne : natToChars n ≠ [] := natToChars_ne_nil n
  have hlt : n < 10 ^ (n + 1) := by
    calc n < 10 ^ n := Nat.lt_pow_self (by norm_num) n
    _ ≤ 10 ^ (n + 1) := Nat.pow_le_pow_right (by norm_num) (Nat.le_succ n)
  have := parseNatAux_natToCharsCore (n + 1) n hlt 0 []
  rw [List.append_nil] at this
  unfold parseNat
  rw [if_neg (by simpa [List.isEmpty_iff] using hne)]
  unfold natToChars
  rw [this]
  simp [parseNatAux]

theorem parseGoInt_natToChars (n : Nat) : parseGoInt (natToChars n) = some (n : Int) := by
  rcases hmatch : natToChars n with _ | ⟨c, cs⟩
  · exact absurd hmatch (natToChars_ne_nil n)
  · have hc : c ∈ natToChars n := by rw [hmatch]; exact List.mem_cons_self c cs
    rcases natToChars_mem hc with ⟨d, hd, rfl⟩
    simp only [parseGoInt, if_neg (digitChar_ne_dash hd), if_neg (digitChar_ne_plus hd)]
    rw [← hmatch, parseNat_natToChars]
    rfl

theorem parseGoInt_intToChars {i : Int} (hi : 0 ≤ i) :
    parseGoInt (intToChars i) = some i := by
  unfold intToChars
  rw [if_neg (by omega)]
  rw [parseGoInt_natToChars]
  congr 1
  exact Int.toNat_of_nonneg hi

/-! ### Tokenisation lemmas -/

theorem splitWsAux_sep (t : List Char) :
    ∀ acc r, (∀ c ∈ t, isSpace c = false) → (t ≠ [] ∨ acc ≠ []) →
      splitWsAux (t ++ ' ' :: r) acc = (acc.reverse ++ t) :: splitWsAux r [] := by
  induction t with
  | nil =>
    intro acc r _ hne
    have hacc : acc ≠ [] := by simpa using hne
    cases acc with
    | nil => exact absurd rfl hacc
    | cons a as => simp [splitWsAux, isSpace]
  | cons c t2 ih =>
    intro acc r hns _
    have hc : isSpace c = false := hns c (List.mem_cons_self c t2)
    have step : splitWsAux ((c :: t2) ++ ' ' :: r) acc =
        splitWsAux (t2 ++ ' ' :: r) (c :: acc) := by
      simp [splitWsAux, hc]
    rw [step, ih (c :: acc) r (fun x hx => hns x (List.mem_cons_of_mem c hx))
      (Or.inr (by simp))]
    simp

theorem splitWsAux_last (t : List Char) :
    ∀ acc, (∀ c ∈ t, isSpace c = false) → (t ≠ [] ∨ acc ≠ []) →
      splitWsAux t acc = [acc.reverse ++ t] := by
  induction t with
  | nil =>
    intro acc _ hne
    have hacc : acc ≠ [] := by simpa using hne
    cases acc with
    | nil => exact absurd rfl hacc
    | cons a as => simp [splitWsAux]
  | cons c t2 ih =>
    intro acc hns _
    have hc : isSpace c = false := hns c (List.mem_cons_self c t2)
    have step : splitWsAux (c :: t2) acc = splitWsAux t2 (c :: acc) := by
      simp [splitWsAux, hc]
    rw [step, ih (c :: acc) (fun x hx => hns x (List.mem_cons_of_mem c hx))
      (Or.inr (by simp))]
    simp

theorem splitWs_four (t1 t2 t3 t4 : List Char)
    (h1 : t1 ≠ []) (h2 : t2 ≠ []) (h3 : t3 ≠ []) (h4 : t4 ≠ [])
    (n1 : ∀ c ∈ t1, isSpace c = false) (n2 : ∀ c ∈ t2, isSpace c = false)
    (n3 : ∀ c ∈ t3, isSpace c = false) (n4 : ∀ c ∈ t4, isSpace c = false) :
    splitWs (t1 ++ (' ' :: (t2 ++ (' ' :: (t3 ++ (' ' :: t4)))))) = [t1, t2, t3, t4] := by
  unfold splitWs
  rw [splitWsAux_sep t1 _ _ n1 (Or.inl h1)]
  rw [splitWsAux_sep t2 _ _ n2 (Or.inl h2)]
  rw [splitWsAux_sep t3 _ _ n3 (Or.inl h3)]
  rw [splitWsAux_last t4 _ n4 (Or.inl h4)]
  simp

theorem natToChars_not_space {n : Nat} : ∀ c ∈ natToChars n, isSpace c = false := by
  intro c hc
  rcases natToChars_mem hc with ⟨d, hd, rfl⟩
  exact digitChar_not_space hd

theorem intToChars_nonneg_not_space {i : Int} (hi : 0 ≤ i) :
    ∀ c ∈ intToChars i, isSpace c = false := by
  intro c hc
  unfold intToChars at hc
  rw [if_neg (by omega)] at hc
  exact natToChars_not_space c hc

theorem intToChars_nonneg_ne_nil {i : Int} (hi : 0 ≤ i) : intToChars i ≠ [] := by
  unfold intToChars
  rw [if_neg (by omega)]
  exact natToChars_ne_nil _

/-- C2: for all integers p, w, port in [0, 65535] and every non-empty host with
no whitespace, ParseSRVTarget applied to FormatSRVValue p w port host succeeds
and reproduces exactly the priority p, weight w, port and host value. -/
theorem srv_roundtrip (p w pt : Int) (host : List Char)
    (hp0 : 0 ≤ p) (hp1 : p ≤ 65535) (hw0 : 0 ≤ w) (hw1 : w ≤ 65535)
    (hpt0 : 0 ≤ pt) (hpt1 : pt ≤ 65535) (hhost : host ≠ [])
    (hws : ∀ c ∈ host, isSpace c = false) :
    ParseSRVTarget (FormatSRVValue p w pt host) = some ⟨p, w, pt, host⟩ := by
  have hform : FormatSRVValue p w pt host =
      intToChars p ++ (' ' :: (intToChars w ++ (' ' :: (intToChars pt ++ (' ' :: host))))) := by
    simp [FormatSRVValue]
  rw [hform]
  unfold ParseSRVTarget
  rw [splitWs_four _ _ _ _ (intToChars_nonneg_ne_nil hp0) (intToChars_nonneg_ne_nil hw0)
    (intToChars_nonneg_ne_nil hpt0) hhost (intToChars_nonneg_not_space hp0)
    (intToChars_nonneg_not_space hw0) (intToChars_nonneg_not_space hpt0) hws]
  simp [parseGoInt_intToChars hp0, parseGoInt_intToChars hw0, parseGoInt_intToChars hpt0]

/-- Witness for C2 at a concrete SRV value. -/
theorem srv_roundtrip_witness :
    ParseSRVTarget (FormatSRVValue 10 20 8080 "target.example.com".data) =
      some ⟨10, 20, 8080, "target.example.com".data⟩ :=
  srv_roundtrip 10 20 8080 "target.example.com".data (by decide) (by decide) (by decide)
    (by decide) (by decide) (by decide) (by decide) (by decide)

/-! ## Data model (types.go)

DNSRecord mirrors the vendor wire shape: Port, Priority and Weight are
Go pointers (nil when the JSON field is absent or null), modelled as
Option Int.  Endpoint mirrors the external-dns endpoint consumed by the
adapter: name, record type, TTL and the ordered target list. -/

structure DNSRecord where
  id : String
  enabled : Bool
  key : String
  port : Option Int
  priority : Option Int
  recordType : String
  ttl : Int
  value : String
  weight : Option Int
deriving Repr, DecidableEq

structure Endpoint where
  dnsName : String
  recordType : String
  recordTTL : Int
  targets : List String
deriving Repr, DecidableEq

/-! ## GetEndpoints record post-processing (client.go)

After a successful JSON decode, GetEndpoints walks the records and, for every
SRV record, folds priority, weight and port into the value via
Sprintf of "%d %d %d %s" and nulls the three fields out.  The Go code
dereferences the three pointers without nil checks; dereferencing a nil
pointer is a Go runtime panic, modelled here as none. -/

def foldSRVRecord (record : DNSRecord) : Option DNSRecord :=
  if record.recordType = "SRV" then
    match record.priority, record.weight, record.port with
    | some p, some w, some pt =>
      some { record with
        value := (FormatSRVValue p w pt record.value.data).asString,
        priority := none, weight := none, port := none }
    | _, _, _ => none
  else
    some record

/-- SRV-folding pass of GetEndpoints over the decoded record list; none models
a runtime panic while processing some record. -/
def GetEndpointsFold (records : List DNSRecord) : Option (List DNSRecord) :=
  records.mapM foldSRVRecord

/-! ## CreateEndpoint (client.go) -/

/-- Outcome kind of a CreateEndpoint call. -/
inductive CreateResult
  | ok (created : List DNSRecord)
  | srvParseError
  | postError
deriving Repr, DecidableEq

/-- Observable outcome of CreateEndpoint: the create calls issued in order,
the metric counter increments, the returned value, and the caller-visible
Endpoint after the call (CreateEndpoint receives a pointer and may reassign
its Targets field). -/
structure CreateOutcome where
  posts : List DNSRecord
  ignoredCNAMEIncr : Nat
  srvParseErrIncr : Nat
  result : CreateResult
  endpointAfter : Endpoint
deriving Repr, DecidableEq

/-- prepareDNSRecord (client.go): one wire record for one target; id empty,
enabled true, and the three SRV pointers nil. -/
def prepareDNSRecord (ep : Endpoint) (target : String) : DNSRecord :=
  { id := "", enabled := true, key := ep.dnsName, port := none, priority := none,
    recordType := ep.recordType, ttl := ep.recordTTL, value := target, weight := none }

/-- Application of parseSRVTarget to a record (client.go): on success the
parsed numbers land in priority, weight and port and the host in value. -/
def applySRVParse (record : DNSRecord) (target : String) : Option DNSRecord :=
  match ParseSRVTarget target.data with
  | some f =>
    some { record with
      priority := some f.priority, weight := some f.weight,
      port := some f.port, value := f.value.asString }
  | none => none

/-- Per-target loop of CreateEndpoint.  post is the oracle for one POST of a
wire record: some created on success, none on failure.  Returns the records a
POST was issued for (in order), the SRV-parse-error counter increments, and
the result.  Note the loop parses ep1.targets.headD for every SRV iteration:
the Go code passes endpoint.Targets[0], not the loop variable. -/
def createLoop (post : DNSRecord → Option DNSRecord) (ep1 : Endpoint) :
    List String → List DNSRecord × Nat × CreateResult
  | [] => ([], 0, CreateResult.ok [])
  | target :: rest =>
    let record := prepareDNSRecord ep1 target
    let record? : Option DNSRecord :=
      if ep1.recordType = "SRV" then applySRVParse record (ep1.targets.headD "")
      else some record
    match record? with
    | none => ([], 1, CreateResult.srvParseError)
    | some r =>
      match post r with
      | none => ([r], 0, CreateResult.postError)
      | some created =>
        let (ps, si, res) := createLoop post ep1 rest
        (r :: ps, si,
          match res with
          | CreateResult.ok cs => CreateResult.ok (created :: cs)
          | other => other)

/-- CreateEndpoint (client.go): truncate the target list of a multi-target
CNAME endpoint in place (incrementing the ignored-CNAME-targets counter once),
then create one wire record per remaining target. -/
def CreateEndpoint (post : DNSRecord → Option DNSRecord) (ep : Endpoint) : CreateOutcome :=
  let ep1 := if ep.recordType = "CNAME" ∧ ep.targets.length > 1
    then { ep with targets := ep.targets.take 1 } else ep
  let ignored : Nat := if ep.recordType = "CNAME" ∧ ep.targets.length > 1 then 1 else 0
  let out := createLoop post ep1 ep1.targets
  { posts := out.1, ignoredCNAMEIncr := ignored, srvParseErrIncr := out.2.1,
    result := out.2.2, endpointAfter := ep1 }

/-- Vendor SRV record whose priority, weight and port JSON fields are absent,
so the decoded Go pointers are nil. -/
def srvRecordMissingFields : DNSRecord :=
  { id := "abc123", enabled := true, key := "x.example.com",
    port := none, priority := none, recordType := "SRV", ttl := 300,
    value := "h.example.com", weight := none }

/-- C3 (evaluation at the failing input): a decoded vendor response holding one
SRV record whose priority, weight and port fields are absent makes the SRV
fold of GetEndpoints dereference a nil pointer, which is a Go runtime panic
(modelled as none) instead of the typed error the spec requires. -/
theorem getEndpoints_nil_srv_field_panics :
    GetEndpointsFold [srvRecordMissingFields] = none := rfl

/-- Evaluation of a single-target CNAME createLoop iteration. -/
theorem createLoop_single_nonSRV (post : DNSRecord → Option DNSRecord)
    (ep1 : Endpoint) (a : String) (h : ep1.recordType ≠ "SRV") :
    createLoop post ep1 [a] =
      (match post (prepareDNSRecord ep1 a) with
       | some created => ([prepareDNSRecord ep1 a], 0, CreateResult.ok [created])
       | none => ([prepareDNSRecord ep1 a], 0, CreateResult.postError)) := by
  cases hp : post (prepareDNSRecord ep1 a) <;> simp [createLoop, h, hp]

/-- C6 amended: for a CNAME endpoint with two or more targets, CreateEndpoint
issues exactly one create call, using the first target, increments the
ignored-CNAME-targets counter by one (a single Inc per endpoint, not one per
dropped target), and the extra targets are dropped without error: the call
fails only if the one POST fails. -/
theorem cname_multi_target_create (post : DNSRecord → Option DNSRecord)
    (ep : Endpoint) (a b : String) (rest : List String)
    (hty : ep.recordType = "CNAME") (ht : ep.targets = a :: b :: rest) :
    (CreateEndpoint post ep).posts = [prepareDNSRecord ep a] ∧
    (CreateEndpoint post ep).ignoredCNAMEIncr = 1 ∧
    (CreateEndpoint post ep).result =
      (match post (prepareDNSRecord ep a) with
       | some created => CreateResult.ok [created]
       | none => CreateResult.postError) := by
  have hlen : ep.targets.length > 1 := by rw [ht]; simp
  have hcond : ep.recordType = "CNAME" ∧ ep.targets.length > 1 := ⟨hty, hlen⟩
  have hep1 : (if ep.recordType = "CNAME" ∧ ep.targets.length > 1
      then { ep with targets := ep.targets.take 1 } else ep) =
      { ep with targets := [a] } := by
    rw [if_pos hcond, ht]
    rfl
  have hne : ({ ep with targets := [a] } : Endpoint).recordType ≠ "SRV" := by
    show ep.recordType ≠ "SRV"
    rw [hty]; decide
  have hprep : prepareDNSRecord { ep with targets := [a] } a = prepareDNSRecord ep a := rfl
  have hloop := createLoop_single_nonSRV post { ep with targets := [a] } a hne
  rw [hprep] at hloop
  unfold CreateEndpoint
  rw [hep1, if_pos hcond]
  cases hp : post (prepareDNSRecord ep a) <;> simp [hloop, hp]

/-- Concrete three-target CNAME endpoint used by the C6 witnesses. -/
def cnameEp3 : Endpoint :=
  { dnsName := "multi.example.com", recordType := "CNAME", recordTTL := 300,
    targets := ["a", "b", "c"] }

/-- POST oracle that always succeeds, returning the record with a vendor id. -/
def postOK : DNSRecord → Option DNSRecord := fun r => some { r with id := "created" }

/-- C6 counterexample: for the CNAME endpoint with targets a, b, c the
ignored-CNAME-targets counter is incremented by 1, not by 2 as claimed. -/
theorem cname_counter_not_two :
    (CreateEndpoint postOK cnameEp3).ignoredCNAMEIncr ≠ 2 := by decide

/-- Witness for the amended C6 at the concrete three-target CNAME endpoint. -/
theorem cname_multi_target_create_witness :
    (CreateEndpoint postOK cnameEp3).posts = [prepareDNSRecord cnameEp3 "a"] ∧
    (CreateEndpoint postOK cnameEp3).ignoredCNAMEIncr = 1 ∧
    (CreateEndpoint postOK cnameEp3).result =
      (match postOK (prepareDNSRecord cnameEp3 "a") with
       | some created => CreateResult.ok [created]
       | none => CreateResult.postError) :=
  cname_multi_target_create postOK cnameEp3 "a" "b" ["c"] rfl rfl

/-- C10: CreateEndpoint reassigns the Targets field of the caller's endpoint
when the record type is CNAME and more than one target is present, truncating
the slice to its first element; every other endpoint is left unchanged. -/
theorem createEndpoint_frame (post : DNSRecord → Option DNSRecord) (ep : Endpoint) :
    (CreateEndpoint post ep).endpointAfter =
      if ep.recordType = "CNAME" ∧ ep.targets.length > 1
      then { ep with targets := ep.targets.take 1 } else ep := rfl

/-! ## DeleteEndpoint (client.go) -/

/-- Outcome kind of a DeleteEndpoint call. -/
inductive DeleteResult
  | ok
  | aggregateError (failed : Nat)
  | fetchError
deriving Repr, DecidableEq

/-- Per-record loop of DeleteEndpoint: issue one DELETE for every record whose
key and recordType match the endpoint, collecting failures.  delete is the
oracle for one DELETE call.  Returns the records a DELETE was issued for, in
order, and the number of collected failures. -/
def deleteLoop (delete : DNSRecord → Bool) (ep : Endpoint) :
    List DNSRecord → List DNSRecord × Nat
  | [] => ([], 0)
  | r :: rest =>
    if r.key = ep.dnsName ∧ r.recordType = ep.recordType then
      let out := deleteLoop delete ep rest
      (r :: out.1, (if delete r then 0 else 1) + out.2)
    else deleteLoop delete ep rest

/-- DeleteEndpoint (client.go): re-read all records (fetch oracle, none on
error), DELETE every match, and aggregate the collected failures into one
error carrying their count. -/
def DeleteEndpoint (fetch : Option (List DNSRecord)) (delete : DNSRecord → Bool)
    (ep : Endpoint) : DeleteResult × List DNSRecord :=
  match fetch with
  | none => (DeleteResult.fetchError, [])
  | some records =>
    let out := deleteLoop delete ep records
    (if 0 < out.2 then DeleteResult.aggregateError out.2 else DeleteResult.ok, out.1)

/-- Matching predicate used by the delete loop: key and record type equal. -/
def matchesEndpoint (ep : Endpoint) (r : DNSRecord) : Bool :=
  decide (r.key = ep.dnsName ∧ r.recordType = ep.recordType)

theorem deleteLoop_eq (delete : DNSRecord → Bool) (ep : Endpoint) :
    ∀ records, deleteLoop delete ep records =
      (records.filter (matchesEndpoint ep),
       ((records.filter (matchesEndpoint ep)).filter (fun r => !delete r)).length) := by
  intro records
  induction records with
  | nil => rfl
  | cons r rest ih =>
    by_cases h : r.key = ep.dnsName ∧ r.recordType = ep.recordType
    · by_cases hd : delete r <;>
        simp [deleteLoop, matchesEndpoint, h, hd, ih, Nat.add_comm]
    · simp [deleteLoop, matchesEndpoint, h, ih]

/-- C5: for every endpoint whose record fetch succeeds, DeleteEndpoint issues
one DELETE per vendor record whose key and recordType match the endpoint,
continues past individual DELETE failures, and returns an aggregate error
carrying the failure count exactly when some DELETE failed; with zero matches
it returns ok and issues zero DELETE calls. -/
theorem deleteEndpoint_spec (delete : DNSRecord → Bool) (records : List DNSRecord)
    (ep : Endpoint) :
    DeleteEndpoint (some records) delete ep =
      (let matching := records.filter (matchesEndpoint ep)
       let failed := (matching.filter (fun r => !delete r)).length
       (if 0 < failed then DeleteResult.aggregateError failed else DeleteResult.ok,
        matching)) := by
  simp only [DeleteEndpoint, deleteLoop_eq]

/-! ## Read-side grouping (provider.go, Records)

Records filters the fetched vendor records to the supported types, groups
them in a map keyed by the string Key + RecordType (plain concatenation,
no separator), and emits one Endpoint per non-empty group, carrying the
first group member's key, type and TTL, with targets drawn from all group
members' values.  The Go map is modelled as an association list updated in
encounter order; Go map iteration order is arbitrary, so statements below
speak only of group contents, not of the order of the produced endpoints. -/

/-- Models provider.SupportedRecordType of the external-dns library, the
record types the orchestrator recognises (spec section 3). -/
def SupportedRecordType : String → Bool
  | "A" | "AAAA" | "CNAME" | "MX" | "NS" | "SRV" | "TXT" => true
  | _ => false

/-- Lookup of a group by its key in the association-list model of the map. -/
def findGroup : List (String × List DNSRecord) → String → Option (List DNSRecord)
  | [], _ => none
  | (k, rs) :: gs, gk => if k = gk then some rs else findGroup gs gk

/-- Append a record to its group, creating the group on first encounter. -/
def addToGroups : List (String × List DNSRecord) → String → DNSRecord →
    List (String × List DNSRecord)
  | [], gk, r => [(gk, [r])]
  | (k, rs) :: gs, gk, r =>
    if k = gk then (k, rs ++ [r]) :: gs else (k, rs) :: addToGroups gs gk r

/-- Grouping loop of Records: supported records are appended to the group
keyed by Key + RecordType. -/
def buildGroups (records : List DNSRecord) : List (String × List DNSRecord) :=
  records.foldl
    (fun gs r =>
      if SupportedRecordType r.recordType then addToGroups gs (r.key ++ r.recordType) r
      else gs)
    []

/-- Membership test of a record in the group keyed gk. -/
def inGroup (gk : String) (r : DNSRecord) : Bool :=
  SupportedRecordType r.recordType && decide (r.key ++ r.recordType = gk)

/-- Endpoint emission of Records: one Endpoint per non-empty group, fields
from the first group member, targets from all members' values (the
external-dns endpoint constructor is modelled as plain construction). -/
def Records (records : List DNSRecord) : List Endpoint :=
  (buildGroups records).filterMap
    (fun g =>
      match g.2 with
      | [] => none
      | r0 :: _ =>
        some ⟨r0.key, r0.recordType, r0.ttl, g.2.map (fun r => r.value)⟩)

theorem findGroup_addToGroups (gs : List (String × List DNSRecord))
    (gk gk2 : String) (r : DNSRecord) :
    findGroup (addToGroups gs gk r) gk2 =
      if gk = gk2 then some ((findGroup gs gk).getD [] ++ [r])
      else findGroup gs gk2 := by
  induction gs with
  | nil =>
    by_cases h : gk = gk2 <;> simp [addToGroups, findGroup, h]
  | cons g gs ih =>
    obtain ⟨k, rs⟩ := g
    by_cases hk : k = gk
    · subst hk
      by_cases h2 : k = gk2
      · subst h2
        simp [addToGroups, findGroup]
      · simp [addToGroups, findGroup, h2]
    · by_cases h2 : k = gk2
      · subst h2
        have : ¬ gk = k := fun h => hk h.symm
        simp [addToGroups, findGroup, hk, this]
      · simp [addToGroups, findGroup, hk, h2, ih]

theorem findGroup_buildGroups_aux (gk : String) :
    ∀ (records : List DNSRecord) (gs : List (String × List DNSRecord)),
      findGroup
        (records.foldl
          (fun gs r =>
            if SupportedRecordType r.recordType then
              addToGroups gs (r.key ++ r.recordType) r
            else gs)
          gs) gk =
      (if (findGroup gs gk = none ∧ records.filter (inGroup gk) = [])
        then none
        else some ((findGroup gs gk).getD [] ++ (records.filter (inGroup gk)).map id)) := by
  intro records
  induction records with
  | nil =>
    intro gs
    cases hg : findGroup gs gk <;> simp [hg]
  | cons r rest ih =>
    intro gs
    by_cases hs : SupportedRecordType r.recordType
    · by_cases hk : r.key ++ r.recordType = gk
      · have hin : inGroup gk r = true := by simp [inGroup, hs, hk]
        simp only [List.foldl_cons, if_pos hs, hk]
        rw [ih (addToGroups gs gk r)]
        rw [findGroup_addToGroups gs gk gk r, if_pos rfl]
        simp [List.filter_cons, hin]
      · have hin : inGroup gk r = false := by simp [inGroup, hk]
        simp only [List.foldl_cons, if_pos hs]
        rw [ih (addToGroups gs (r.key ++ r.recordType) r)]
        rw [findGroup_addToGroups gs (r.key ++ r.recordType) gk r, if_neg hk]
        simp [List.filter_cons, hin]
    · have hin : inGroup gk r = false := by simp [inGroup, hs]
      simp only [List.foldl_cons, if_neg hs]
      rw [ih gs]
      simp [List.filter_cons, hin]

/-- Group lookup of a built map equals the filter by group key. -/
theorem findGroup_buildGroups (records : List DNSRecord) (gk : String) :
    findGroup (buildGroups records) gk =
      if records.filter (inGroup gk) = [] then none
      else some (records.filter (inGroup gk)) := by
  unfold buildGroups
  rw [findGroup_buildGroups_aux gk records []]
  simp [findGroup]

theorem findGroup_mem :
    ∀ (gs : List (String × List DNSRecord)) (gk : String) (rs : List DNSRecord),
      findGroup gs gk = some rs → (gk, rs) ∈ gs := by
  intro gs
  induction gs with
  | nil => intro gk rs h; simp [findGroup] at h
  | cons g gs ih =>
    intro gk rs h
    obtain ⟨k, krs⟩ := g
    by_cases hk : k = gk
    · subst hk
      simp [findGroup] at h
      subst h
      exact List.mem_cons_self _ _
    · rw [findGroup, if_neg hk] at h
      exact List.mem_cons_of_mem _ (ih gk rs h)

/-- An A record at name fooAAA: its concatenated group key collides with the
group key of an AAAA record at name foo. -/
def recA : DNSRecord :=
  ⟨"1", true, "fooAAA", none, none, "A", 300, "192.0.2.1", none⟩

/-- An AAAA record at name foo, colliding with recA under concatenation. -/
def recAAAA : DNSRecord :=
  ⟨"2", true, "foo", none, none, "AAAA", 300, "2001:db8::1", none⟩

/-- C7 counterexample: recA and recAAAA have different (key, recordType) pairs
yet their concatenated group keys coincide, so Records folds them into a
single Endpoint; the read-side grouping is not the partition by equality of
the pair (key, recordType). -/
theorem grouping_not_by_pair :
    (recA.key ≠ recAAAA.key ∨ recA.recordType ≠ recAAAA.recordType) ∧
    findGroup (buildGroups [recA, recAAAA]) "fooAAAA" = some [recA, recAAAA] ∧
    Records [recA, recAAAA] =
      [⟨"fooAAA", "A", 300, ["192.0.2.1", "2001:db8::1"]⟩] := by
  refine ⟨Or.inl (by decide), by decide, by decide⟩

/-- C7 amended: two supported vendor records are folded into the same group
(and hence the same Endpoint) exactly when their concatenated strings
key ++ recordType coincide — which the concatenation collision of recA and
recAAAA shows is weaker than equality of the pair (key, recordType) — and
every group emits one Endpoint whose targets are all group members' values. -/
theorem records_grouping (records : List DNSRecord) (r1 r2 : DNSRecord)
    (h1 : r1 ∈ records) (h2 : r2 ∈ records)
    (hs1 : SupportedRecordType r1.recordType = true)
    (hs2 : SupportedRecordType r2.recordType = true) :
    ((∃ gk rs, findGroup (buildGroups records) gk = some rs ∧ r1 ∈ rs ∧ r2 ∈ rs) ↔
      r1.key ++ r1.recordType = r2.key ++ r2.recordType) ∧
    (∀ gk rs, findGroup (buildGroups records) gk = some rs →
      ∃ r0 rest, rs = r0 :: rest ∧
        (⟨r0.key, r0.recordType, r0.ttl, rs.map (fun r => r.value)⟩ : Endpoint) ∈
          Records records) := by
  constructor
  · constructor
    · rintro ⟨gk, rs, hf, hr1, hr2⟩
      rw [findGroup_buildGroups] at hf
      by_cases hemp : records.filter (inGroup gk) = []
      · rw [if_pos hemp] at hf; exact absurd hf (by simp)
      · rw [if_neg hemp] at hf
        have hrs : rs = records.filter (inGroup gk) := by
          injection hf with h; exact h.symm
        subst hrs
        have g1 : inGroup gk r1 = true := (List.mem_filter.mp hr1).2
        have g2 : inGroup gk r2 = true := (List.mem_filter.mp hr2).2
        have e1 : r1.key ++ r1.recordType = gk := by
          simpa [inGroup, hs1] using g1
        have e2 : r2.key ++ r2.recordType = gk := by
          simpa [inGroup, hs2] using g2
        rw [e1, e2]
    · intro heq
      have hin1 : inGroup (r1.key ++ r1.recordType) r1 = true := by
        simp [inGroup, hs1]
      have hin2 : inGroup (r1.key ++ r1.recordType) r2 = true := by
        simp [inGroup, hs2, heq.symm]
      have hm1 : r1 ∈ records.filter (inGroup (r1.key ++ r1.recordType)) :=
        List.mem_filter.mpr ⟨h1, hin1⟩
      have hne : records.filter (inGroup (r1.key ++ r1.recordType)) ≠ [] :=
        List.ne_nil_of_mem hm1
      refine ⟨r1.key ++ r1.recordType,
        records.filter (inGroup (r1.key ++ r1.recordType)), ?_, hm1,
        List.mem_filter.mpr ⟨h2, hin2⟩⟩
      rw [findGroup_buildGroups, if_neg hne]
  · intro gk rs hf
    have hmem : (gk, rs) ∈ buildGroups records := findGroup_mem _ gk rs hf
    rw [findGroup_buildGroups] at hf
    by_cases hemp : records.filter (inGroup gk) = []
    · rw [if_pos hemp] at hf; exact absurd hf (by simp)
    · rw [if_neg hemp] at hf
      have hrs : rs = records.filter (inGroup gk) := by
        injection hf with h; exact h.symm
      have hne : rs ≠ [] := by rw [hrs]; exact hemp
      cases hcase : rs with
      | nil => exact absurd hcase hne
      | cons r0 rest =>
        refine ⟨r0, rest, rfl, ?_⟩
        apply List.mem_filterMap.mpr
        refine ⟨(gk, rs), hmem, ?_⟩
        rw [hcase]

/-- First of two A records at the same name used by the C7 witness. -/
def recW1 : DNSRecord :=
  ⟨"3", true, "w.example.com", none, none, "A", 120, "10.0.0.1", none⟩

/-- Second of two A records at the same name used by the C7 witness. -/
def recW2 : DNSRecord :=
  ⟨"4", true, "w.example.com", none, none, "A", 120, "10.0.0.2", none⟩

/-- Witness for the amended C7: two same-name same-type A records land in one
group. -/
theorem records_grouping_witness :
    ∃ gk rs, findGroup (buildGroups [recW1, recW2]) gk = some rs ∧
      recW1 ∈ rs ∧ recW2 ∈ rs :=
  (records_grouping [recW1, recW2] recW1 recW2 (by decide) (by decide)
    (by decide) (by decide)).1.mpr (by decide)

/-! ## ApplyChanges (provider.go)

ApplyChanges first re-reads the existing records (the conflict-detection
baseline), then deletes every endpoint of UpdateOld followed by Delete,
fail-fast, then walks Create followed by UpdateNew: for a CNAME endpoint it
first deletes every baseline CNAME endpoint at the same name (fail-fast),
then creates the endpoint, fail-fast.  The client calls are abstracted by a
behaviour oracle, and the call sequence is recorded as an event trace. -/

/-- The change sets handed over by the orchestrator. -/
structure Changes where
  create : List Endpoint
  updateOld : List Endpoint
  updateNew : List Endpoint
  delete : List Endpoint
deriving Repr, DecidableEq

/-- One client-level call issued by ApplyChanges. -/
inductive PEvent
  | eread
  | edelete (ep : Endpoint)
  | ecreate (ep : Endpoint)
deriving Repr, DecidableEq

/-- Outcome oracle for the client calls ApplyChanges performs: the baseline
read result (none on error) and per-endpoint delete and create success. -/
structure ClientBehavior where
  recordsResult : Option (List Endpoint)
  deleteResult : Endpoint → Bool
  createResult : Endpoint → Bool

/-- Fail-fast DeleteEndpoint sequence over a list of endpoints: each attempt
is recorded; the first failure stops the walk. -/
def applyDeletes (b : ClientBehavior) : List Endpoint → List PEvent × Bool
  | [] => ([], true)
  | ep :: rest =>
    if b.deleteResult ep then
      let out := applyDeletes b rest
      (PEvent.edelete ep :: out.1, out.2)
    else ([PEvent.edelete ep], false)

/-- Baseline endpoints a CNAME create conflicts with: every baseline CNAME
endpoint at the same name (provider.go, conflict scan). -/
def cnameConflicts (existing : List Endpoint) (ep : Endpoint) : List Endpoint :=
  if ep.recordType = "CNAME" then
    existing.filter (fun r => decide (r.recordType = "CNAME" ∧ r.dnsName = ep.dnsName))
  else []

/-- Create phase of ApplyChanges: per endpoint, delete its CNAME conflicts
fail-fast, then create it, fail-fast. -/
def applyCreates (b : ClientBehavior) (existing : List Endpoint) :
    List Endpoint → List PEvent × Bool
  | [] => ([], true)
  | ep :: rest =>
    let conf := applyDeletes b (cnameConflicts existing ep)
    if conf.2 then
      if b.createResult ep then
        let out := applyCreates b existing rest
        (conf.1 ++ PEvent.ecreate ep :: out.1, out.2)
      else (conf.1 ++ [PEvent.ecreate ep], false)
    else (conf.1, false)

/-- ApplyChanges (provider.go): baseline read, delete phase over
UpdateOld ++ Delete, then create phase over Create ++ UpdateNew. -/
def ApplyChanges (b : ClientBehavior) (ch : Changes) : List PEvent × Bool :=
  match b.recordsResult with
  | none => ([PEvent.eread], false)
  | some existing =>
    let del := applyDeletes b (ch.updateOld ++ ch.delete)
    if del.2 then
      let cre := applyCreates b existing (ch.create ++ ch.updateNew)
      (PEvent.eread :: del.1 ++ cre.1, cre.2)
    else (PEvent.eread :: del.1, false)

theorem applyDeletes_all_ok (b : ClientBehavior) :
    ∀ l, (∀ ep ∈ l, b.deleteResult ep = true) →
      applyDeletes b l = (l.map PEvent.edelete, true) := by
  intro l
  induction l with
  | nil => intro _; rfl
  | cons ep rest ih =>
    intro h
    have hep : b.deleteResult ep = true := h ep (List.mem_cons_self ep rest)
    have hrest := ih (fun e he => h e (List.mem_cons_of_mem ep he))
    simp [applyDeletes, hep, hrest]

theorem applyDeletes_first_fail (b : ClientBehavior) :
    ∀ l1 ep l2, (∀ e ∈ l1, b.deleteResult e = true) → b.deleteResult ep = false →
      applyDeletes b (l1 ++ ep :: l2) =
        (l1.map PEvent.edelete ++ [PEvent.edelete ep], false) := by
  intro l1
  induction l1 with
  | nil => intro ep l2 _ hf; simp [applyDeletes, hf]
  | cons e l1 ih =>
    intro ep l2 hok hf
    have he : b.deleteResult e = true := hok e (List.mem_cons_self e l1)
    have := ih ep l2 (fun x hx => hok x (List.mem_cons_of_mem e hx)) hf
    simp [applyDeletes, he, this]

/-- C4: in every ApplyChanges invocation a baseline-read failure aborts the
call before any delete or create; when all deletes of UpdateOld ++ Delete
succeed the trace is the read, then exactly one delete per endpoint of
UpdateOld ++ Delete in order, then the create-phase trace; and the first
delete failure ends the trace at that delete, so no later delete and no
create is attempted. -/
theorem applyChanges_order (b : ClientBehavior) (ch : Changes) :
    (b.recordsResult = none → ApplyChanges b ch = ([PEvent.eread], false)) ∧
    (∀ existing, b.recordsResult = some existing →
      (∀ ep ∈ ch.updateOld ++ ch.delete, b.deleteResult ep = true) →
      ApplyChanges b ch =
        (PEvent.eread :: ((ch.updateOld ++ ch.delete).map PEvent.edelete ++
          (applyCreates b existing (ch.create ++ ch.updateNew)).1),
         (applyCreates b existing (ch.create ++ ch.updateNew)).2)) ∧
    (∀ existing l1 ep l2, b.recordsResult = some existing →
      ch.updateOld ++ ch.delete = l1 ++ ep :: l2 →
      (∀ e ∈ l1, b.deleteResult e = true) → b.deleteResult ep = false →
      ApplyChanges b ch =
        (PEvent.eread :: (l1.map PEvent.edelete ++ [PEvent.edelete ep]), false)) := by
  refine ⟨?_, ?_, ?_⟩
  · intro h
    simp [ApplyChanges, h]
  · intro existing hb hdel
    have hd := applyDeletes_all_ok b (ch.updateOld ++ ch.delete) hdel
    simp [ApplyChanges, hb, hd]
  · intro existing l1 ep l2 hb hsplit hok hf
    have hd := applyDeletes_first_fail b l1 ep l2 hok hf
    rw [← hsplit] at hd
    simp [ApplyChanges, hb, hd]

/-- C8: when ApplyChanges creates a CNAME endpoint at a name where the
baseline holds exactly one existing CNAME endpoint, the trace is the read,
one delete of the existing record, then one create of the new one: the delete
precedes the create and exactly one of each occurs. -/
theorem applyChanges_cname_conflict (b : ClientBehavior) (existing : List Endpoint)
    (ep old : Endpoint) (hb : b.recordsResult = some existing)
    (hty : ep.recordType = "CNAME")
    (hconf : existing.filter
      (fun r => decide (r.recordType = "CNAME" ∧ r.dnsName = ep.dnsName)) = [old])
    (hdel : b.deleteResult old = true) (hcre : b.createResult ep = true) :
    ApplyChanges b ⟨[ep], [], [], []⟩ =
      ([PEvent.eread, PEvent.edelete old, PEvent.ecreate ep], true) := by
  have hcc : cnameConflicts existing ep = [old] := by
    rw [cnameConflicts, if_pos hty, hconf]
  have hconfdel : applyDeletes b (cnameConflicts existing ep) =
      ([PEvent.edelete old], true) := by
    rw [hcc]
    simp [applyDeletes, hdel]
  simp [ApplyChanges, hb, applyDeletes, applyCreates, hconfdel, hcre]

/-- Baseline CNAME endpoint at foo.example.com used by the C8 witness. -/
def epCOld : Endpoint := ⟨"foo.example.com", "CNAME", 300, ["old.example.com"]⟩

/-- New CNAME endpoint at foo.example.com used by the C8 witness. -/
def epCNew : Endpoint := ⟨"foo.example.com", "CNAME", 300, ["new.example.com"]⟩

/-- Client behaviour whose baseline is the single old CNAME and where every
delete and create succeeds. -/
def behaviorCNAME : ClientBehavior :=
  ⟨some [epCOld], fun _ => true, fun _ => true⟩

/-- Witness for C8 at the concrete conflicting CNAME pair. -/
theorem applyChanges_cname_conflict_witness :
    ApplyChanges behaviorCNAME ⟨[epCNew], [], [], []⟩ =
      ([PEvent.eread, PEvent.edelete epCOld, PEvent.ecreate epCNew], true) :=
  applyChanges_cname_conflict behaviorCNAME [epCOld] epCNew epCOld rfl rfl
    (by decide) rfl rfl

/-- Endpoint created by the C4 witness. -/
def epA : Endpoint := ⟨"a.example.com", "A", 300, ["10.0.0.5"]⟩

/-- Endpoint deleted by the C4 witness. -/
def epB : Endpoint := ⟨"b.example.com", "A", 300, ["10.0.0.6"]⟩

/-- Client behaviour with an empty baseline where every call succeeds. -/
def behaviorEmpty : ClientBehavior :=
  ⟨some [], fun _ => true, fun _ => true⟩

/-- Witness for C4: one delete and one create, the delete first. -/
theorem applyChanges_order_witness :
    ApplyChanges behaviorEmpty ⟨[epA], [], [], [epB]⟩ =
      (PEvent.eread :: (([] ++ [epB]).map PEvent.edelete ++
        (applyCreates behaviorEmpty [] ([epA] ++ [])).1),
       (applyCreates behaviorEmpty [] ([epA] ++ [])).2) :=
  (applyChanges_order behaviorEmpty ⟨[epA], [], [], [epB]⟩).2.1 [] rfl (by decide)

/-! ## Transport (client.go: doRequest, handleUnauthorized, login,
handleErrorResponse)

The HTTP server is an oracle mapping the index of each underlying HTTP call
to a scripted response: its status and whether the vendor error envelope in
its body decodes.  Transport-level failures are not scripted; the claims
below concern completed HTTP responses.  The transport state records the
number of HTTP calls issued so far (equally the index of the next call) and
the number of 401-triggered re-login attempts (handleUnauthorized increments
the relogin metric before calling login).  In the source, doRequest and login
are mutually recursive through the 401 handler with no depth bound, so the
model is made total by a fuel argument consumed at each nested doRequest
invocation: a fuelOut result means the Go code would still be recursing after
issuing that many HTTP calls. -/

/-- One scripted HTTP response. -/
structure ServerResp where
  status : Nat
  envelopeDecodes : Bool

/-- Transport observation state: HTTP calls issued and re-login attempts. -/
structure TState where
  n : Nat
  logins : Nat
deriving Repr, DecidableEq

/-- Error kinds the transport produces (errors.go constructors plus the
wrap applied by handleUnauthorized and the fuel marker of the model). -/
inductive UErr
  | api (status : Nat)
  | dataErr
  | auth (status : Nat)
  | relogin (inner : UErr)
  | fuelOut
deriving Repr, DecidableEq

/-- handleErrorResponse (client.go): decode the vendor error envelope of
response i and produce an API error carrying the status, or a data error if
the envelope does not decode. -/
def handleErrorResponse (srv : Nat → ServerResp) (i : Nat) : UErr :=
  if (srv i).envelopeDecodes then UErr.api (srv i).status else UErr.dataErr

/-- Interpretation login (client.go) gives to the result of its doRequest
call: an error propagates; on a returned response a non-200 status would be
turned into an AuthError (this branch is proved unreachable below). -/
def loginOutcome : Except UErr Nat × TState → Option UErr × TState
  | (Except.error e, s) => (some e, s)
  | (Except.ok st, s) => if st = 200 then (none, s) else (some (UErr.auth st), s)

/-- doRequest (client.go): issue the HTTP call; in API-key mode translate any
non-200 directly to an error; in session mode a 401 triggers
handleUnauthorized, which counts a re-login, runs login (a nested doRequest
against the login path, interpreted by loginOutcome), and on success replays
the original request once, the replay passing through the common non-200
check but not through the 401 branch again. -/
def doRequest : Nat → Bool → (Nat → ServerResp) → TState → Except UErr Nat × TState
  | 0, _, _, s => (Except.error UErr.fuelOut, s)
  | fuel + 1, apiKeyMode, srv, s =>
    let i := s.n
    let s1 : TState := ⟨s.n + 1, s.logins⟩
    if apiKeyMode then
      if (srv i).status = 200 then (Except.ok ((srv i).status), s1)
      else (Except.error (handleErrorResponse srv i), s1)
    else
      if (srv i).status = 401 then
        match loginOutcome (doRequest fuel false srv ⟨s1.n, s1.logins + 1⟩) with
        | (some e, s2) => (Except.error (UErr.relogin e), s2)
        | (none, s2) =>
          let j := s2.n
          let s3 : TState := ⟨s2.n + 1, s2.logins⟩
          if (srv j).status = 200 then (Except.ok ((srv j).status), s3)
          else (Except.error (handleErrorResponse srv j), s3)
      else
        if (srv i).status = 200 then (Except.ok ((srv i).status), s1)
        else (Except.error (handleErrorResponse srv i), s1)

/-- login (client.go): marshal the credentials, POST them through doRequest,
then interpret the outcome via loginOutcome. -/
def login (fuel : Nat) (srv : Nat → ServerResp) (s : TState) : Option UErr × TState :=
  loginOutcome (doRequest fuel false srv s)

/-- Every response doRequest hands back has status 200: any non-200 was
already converted into an error, so the non-200 check inside login is dead
code. -/
theorem doRequest_ok_status (fuel : Nat) :
    ∀ mode srv s st s2, doRequest fuel mode srv s = (Except.ok st, s2) → st = 200 := by
  induction fuel with
  | zero => intro mode srv s st s2 h; simp [doRequest] at h
  | succ fuel ih =>
    intro mode srv s st s2 h
    by_cases hmode : mode
    · subst hmode
      by_cases h200 : (srv s.n).status = 200
      · simp [doRequest, h200] at h
        omega
      · simp [doRequest, h200] at h
    · simp only [Bool.not_eq_true] at hmode
      subst hmode
      by_cases h401 : (srv s.n).status = 401
      · simp only [doRequest, h401, if_pos, if_true, Bool.false_eq_true, if_false] at h
        rcases hm : loginOutcome (doRequest fuel false srv ⟨s.n + 1, s.logins + 1⟩) with
          ⟨e?, s2x⟩
        rw [hm] at h
        cases e? with
        | some e => simp at h
        | none =>
          by_cases hr : (srv s2x.n).status = 200
          · simp [hr] at h
            omega
          · simp [hr] at h
      · by_cases h200 : (srv s.n).status = 200
        · simp [doRequest, h401, h200] at h
          omega
        · simp [doRequest, h401, h200] at h

/-- Server oracle that answers 401 to every call. -/
def srv401 : Nat → ServerResp := fun _ => ⟨401, true⟩

/-- C1 counterexample: in session mode, when the re-login POST itself answers
401, the 401 handler re-enters itself with no depth bound: one doRequest
invocation whose first response is 401 has already issued 6 HTTP calls and
attempted 6 re-logins without completing, refuting both the single-re-login
and the at-most-4-calls bound. -/
theorem doRequest_401_calls_unbounded :
    (doRequest 6 false srv401 ⟨0, 0⟩).2.n = 6 ∧
    (doRequest 6 false srv401 ⟨0, 0⟩).2.logins = 6 := by decide

/-- C1 amended: in session mode, when the first response is 401 and the
re-login POST response is not itself 401, exactly one re-login attempt is
made, and in total exactly 3 HTTP calls are issued when the login POST
returns 200 (original request, login POST, one replay of the original) and
exactly 2 when it fails (original request, login POST, no replay) — in
either case at most 4; in API-key mode every doRequest issues exactly one
HTTP call and never attempts a re-login. -/
theorem doRequest_401_retry (srv : Nat → ServerResp) (s : TState) (fuel : Nat)
    (hfuel : 2 ≤ fuel) (h401 : (srv s.n).status = 401)
    (hno : (srv (s.n + 1)).status ≠ 401) :
    ((doRequest fuel false srv s).2.n =
      (if (srv (s.n + 1)).status = 200 then s.n + 3 else s.n + 2) ∧
     (doRequest fuel false srv s).2.logins = s.logins + 1) ∧
    (∀ (srv2 : Nat → ServerResp) (s2 : TState) (f2 : Nat), 0 < f2 →
      (doRequest f2 true srv2 s2).2 = ⟨s2.n + 1, s2.logins⟩) := by
  constructor
  · obtain ⟨f, rfl⟩ : ∃ f, fuel = f + 2 := ⟨fuel - 2, by omega⟩
    by_cases h2 : (srv (s.n + 1)).status = 200
    · simp only [doRequest, h401, if_pos, if_true, Bool.false_eq_true, if_false,
        loginOutcome, hno, h2]
      by_cases h3 : (srv (s.n + 2)).status = 200 <;> simp [h2, h3]
    · simp only [doRequest, h401, if_pos, if_true, Bool.false_eq_true, if_false,
        loginOutcome, hno, h2]
      simp [h2]
  · intro srv2 s2 f2 hf2
    obtain ⟨g, rfl⟩ : ∃ g, f2 = g + 1 := ⟨f2 - 1, by omega⟩
    by_cases h200 : (srv2 s2.n).status = 200 <;> simp [doRequest, h200]

/-- Server oracle for the C1 witness: 401 to the first call, 200 afterwards. -/
def srvRetry : Nat → ServerResp := fun k => if k = 0 then ⟨401, true⟩ else ⟨200, true⟩

/-- Witness for the amended C1 at the concrete retry scenario. -/
theorem doRequest_401_retry_witness :
    (((doRequest 2 false srvRetry ⟨0, 0⟩).2.n =
       (if (srvRetry (0 + 1)).status = 200 then 0 + 3 else 0 + 2) ∧
      (doRequest 2 false srvRetry ⟨0, 0⟩).2.logins = 0 + 1) ∧
     (∀ (srv2 : Nat → ServerResp) (s2 : TState) (f2 : Nat), 0 < f2 →
       (doRequest f2 true srv2 s2).2 = ⟨s2.n + 1, s2.logins⟩)) :=
  doRequest_401_retry srvRetry ⟨0, 0⟩ 2 (by omega) (by decide) (by decide)

/-- Authentication-error test on a login result. -/
def isAuthErrorOpt : Option UErr → Bool
  | some (UErr.auth _) => true
  | _ => false

/-- Server oracle answering 400 with a decodable error envelope. -/
def srv400 : Nat → ServerResp := fun _ => ⟨400, true⟩

/-- C9 counterexample: a login POST completing with status 400 makes login
return an API error carrying the status, not an authentication error: the
AuthError construction inside login is unreachable because doRequest already
converted the non-200 response into an error. -/
theorem login_non200_not_auth_error :
    (login 1 srv400 ⟨0, 0⟩).1 = some (UErr.api 400) ∧
    isAuthErrorOpt (login 1 srv400 ⟨0, 0⟩).1 = false := by decide

/-- C9 amended: for every login attempt in session mode whose HTTP POST
completes with a status other than 200 and 401 and whose error envelope
decodes, login returns the API error produced by doRequest, carrying the
HTTP status (a data error when the envelope does not decode); no
authentication error is ever produced because doRequest hands back only
status-200 responses. -/
theorem login_non200_api_error (srv : Nat → ServerResp) (fuel : Nat) (s : TState)
    (hfuel : 0 < fuel) (h200 : (srv s.n).status ≠ 200)
    (h401 : (srv s.n).status ≠ 401) (hdec : (srv s.n).envelopeDecodes = true) :
    login fuel srv s = (some (UErr.api (srv s.n).status), ⟨s.n + 1, s.logins⟩) := by
  obtain ⟨f, rfl⟩ : ∃ f, fuel = f + 1 := ⟨fuel - 1, by omega⟩
  simp [login, doRequest, h200, h401, loginOutcome, handleErrorResponse, hdec]

/-- Witness for the amended C9 at the concrete 400 login response. -/
theorem login_non200_api_error_witness :
    login 3 srv400 ⟨0, 0⟩ = (some (UErr.api (srv400 0).status), ⟨0 + 1, 0⟩) :=
  login_non200_api_error srv400 3 ⟨0, 0⟩ (by omega) (by decide) (by decide) (by decide)

end Unifi
